import Mathlib

/- Verification of the consensus-validation core (pkg/chain/validate.go) of the
pod blockchain node.  The Go source is shallowly embedded: machine int64
arithmetic is modelled over Int, with wrap-around made explicit (i64add)
exactly where the source relies on overflow detection; fallible code returns
Except or Option; external collaborators (UTXO backing store, script engine,
soft-fork threshold tracker) are abstract function parameters. -/

namespace PodChain

/-- A 32-byte chain hash, modelled by its value as a natural number.  Only
decidable equality of hashes is used by the validation code. -/
abbrev Hash := Nat

/-- The zero-valued hash, used to mark the null previous outpoint. -/
def zeroHash : Hash := 0

/-- Maximal uint32 value, used as the coinbase previous-output index and as
the sequence number that disables lock-time checks. -/
def maxUint32 : Nat := 4294967295

/-- Wrap an unbounded integer into the int64 range, modelling Go two's
complement int64 arithmetic. -/
def i64wrap (x : Int) : Int := (x + 2 ^ 63) % 2 ^ 64 - 2 ^ 63

/-- Go int64 addition (wraps on overflow). -/
def i64add (a b : Int) : Int := i64wrap (a + b)

/-- Interpret the low 32 bits of a natural number as a signed int32, modelling
the Go conversion int32(uint64value). -/
def toInt32 (n : Nat) : Int :=
  let m : Nat := n % 2 ^ 32
  if m < 2 ^ 31 then (m : Int) else (m : Int) - 2 ^ 32

/-- A transaction outpoint: referenced transaction hash and output index
(wire.OutPoint). -/
structure OutPoint where
  hash : Hash
  index : Nat
deriving DecidableEq

/-- A transaction input (wire.TxIn): previous outpoint, unlocking script and
sequence number. -/
structure TxIn where
  previousOutPoint : OutPoint
  signatureScript : List Nat
  sequence : Nat
deriving DecidableEq

/-- A transaction output (wire.TxOut): int64 amount and locking script. -/
structure TxOut where
  value : Int
  pkScript : List Nat
deriving DecidableEq

/-- A raw transaction (wire.MsgTx).  serializedSizeStripped is modelled from
the spec: the wire serialization routines are outside the sources, so the
stripped serialize size is carried as an abstract attribute of the
transaction. -/
structure MsgTx where
  txIn : List TxIn
  txOut : List TxOut
  lockTime : Nat
  serializedSizeStripped : Nat
deriving DecidableEq

/-- A util.Tx: a raw transaction together with its cached hash (the hash
function itself is an external collaborator, so the hash is carried as
data). -/
structure Tx where
  msgTx : MsgTx
  hash : Hash
deriving DecidableEq

/-- A block header (wire.BlockHeader); the timestamp is kept as Unix
seconds. -/
structure BlockHeader where
  version : Int
  prevBlock : Hash
  merkleRoot : Hash
  timestamp : Int
  bits : Nat
deriving DecidableEq

/-- A util.Block: header, transaction list and cached block hash. -/
structure Block where
  header : BlockHeader
  transactions : List Tx
  hash : Hash

/-- An unspent-transaction-output entry (blockchain.UtxoEntry): amount,
locking script, origin height, coinbase flag and spent tombstone. -/
structure UtxoEntry where
  amount : Int
  pkScript : List Nat
  blockHeight : Int
  isCoinBase : Bool
  spent : Bool
deriving DecidableEq

/-- Modelled from the spec: blockchain.UtxoViewpoint (whose implementation is
outside the sources) is a mapping from outpoints to UTXO entries plus a best
hash recording which block state the view represents. -/
structure UtxoViewpoint where
  entries : OutPoint → Option UtxoEntry
  bestHash : Hash

/-- A chain index node (blockchain.BlockNode): the fields of the node consulted
by checkConnectBlock. -/
structure BlockNode where
  hash : Hash
  height : Int
  timestamp : Int
  version : Int

/-- The network identifier (wire.BitcoinNet), restricted to the cases the
validation code distinguishes. -/
inductive Net where
  | mainNet
  | testNet3
  | otherNet
deriving DecidableEq

/-- Version-bits threshold states (blockchain.ThresholdState). -/
inductive ThresholdState where
  | defined
  | started
  | lockedIn
  | active
  | failed
deriving DecidableEq

/-- Rule-error reason codes (blockchain.ErrorCode) reachable from the embedded
functions. -/
inductive ErrorCode where
  | MissingTxOut
  | OverwriteTx
  | TooManySigOps
  | BadFees
  | BadCoinbaseValue
  | ImmatureSpend
  | BadTxOutValue
  | SpendTooHigh
  | UnfinalizedTx
  | UnexpectedDifficulty
  | HighHash
  | MissingCoinbaseHeight
  | NoTxInputs
  | NoTxOutputs
  | TxTooBig
  | DuplicateTxInputs
  | BadCoinbaseScriptLen
  | BadTxInput
deriving DecidableEq

/-- A validation outcome error: a consensus rule violation carrying its reason
code, an internal assertion failure (including Go panics on malformed
structural assumptions), or an error bubbled up from an external
collaborator. -/
inductive VErr where
  | rule (code : ErrorCode)
  | assert
  | external
deriving DecidableEq

/-- Modelled from the spec: util.SatoshiPerBitcoin, the number of base supply
units per coin (the util package is outside the sources). -/
def satoshiPerBitcoin : Int := 100000000

/-- baseSubsidy from validate.go: 2 * util.SatoshiPerBitcoin. -/
def baseSubsidy : Int := 2 * satoshiPerBitcoin

/-- Modelled from the spec: util.MaxSatoshi, the maximum supply unit (the util
package is outside the sources). -/
def MaxSatoshi : Int := 2100000000000000

/-- Modelled from the spec: the per-block maximum scaled signature-operation
cost (blockchain weight constants are outside the sources). -/
def MaxBlockSigOpsCost : Int := 80000

/-- Modelled from the spec: the maximum block base size in bytes. -/
def MaxBlockBaseSize : Nat := 1000000

/-- MinCoinbaseScriptLen from validate.go. -/
def MinCoinbaseScriptLen : Nat := 2

/-- MaxCoinbaseScriptLen from validate.go. -/
def MaxCoinbaseScriptLen : Nat := 100

/-- serializedHeightVersion from validate.go. -/
def serializedHeightVersion : Int := 2

/-- Modelled from the spec: one hard-fork payee (package hardfork, outside the
sources) — an amount and the script-address bytes of the payee. -/
structure Payee where
  amount : Int
  scriptAddress : List Nat

/-- Modelled from the spec: the constant tables of the hardfork package
(outside the sources): ordered payee lists, core development amounts and core
public keys per network. -/
structure HardforkCfg where
  payees : List Payee
  testnetPayees : List Payee
  coreAmount : Int
  testnetCoreAmount : Int
  corePubkeyBytes : List (List Nat)
  testnetCorePubkeyBytes : List (List Nat)

/-- Modelled from the spec: the hard-fork plan entry fork.List[1] (package
fork, outside the sources): activation heights per network, plus whether the
fork package is configured for testnet. -/
structure ForkCfg where
  activationHeight : Int
  testnetStart : Int
  isTestnet : Bool

/-- Chain parameters (netparams.Params, outside the sources): the fields
consulted by the embedded validation code. -/
structure Params where
  genesisHash : Hash
  net : Net
  bip0034Height : Int
  bip0065Height : Int
  bip0066Height : Int
  coinbaseMaturity : Nat
  subsidyReductionInterval : Int

/-- The configuration bundle threaded through the embedded functions: chain
parameters, fork plan, hardfork constants, the Bip16 activation timestamp
(txscript constant, outside the sources) and the post-fork exponential-decay
subsidy formula.  The decay formula is evaluated by the source in float64
arithmetic (math.Pow), which has no exact shallow embedding, so it is kept
abstract as a function of height and block version. -/
structure Cfg where
  params : Params
  fork : ForkCfg
  hf : HardforkCfg
  bip16Activation : Int
  decaySubsidy : Int → Int → Int

/-- Modelled from the spec: fork.GetCurrent (package fork, outside the
sources) returns the index of the active hard fork for a height: 0 before the
network's activation height and 1 from it on. -/
def GetCurrent (f : ForkCfg) (height : Int) : Nat :=
  if f.isTestnet then (if height ≥ f.testnetStart then 1 else 0)
  else (if height ≥ f.activationHeight then 1 else 0)

/-- The pre-fork subsidy branch of CalcBlockSubsidy:
int64(baseSubsidy) >> uint64(height/SubsidyReductionInterval).  The division
is Go int32 division (truncating); a negative quotient converts to a huge
uint64 shift count, which Go defines to yield 0 for a non-negative shifted
value, and for the non-negative baseSubsidy the right shift is division by a
power of two. -/
def preForkSubsidy (height interval : Int) : Int :=
  let q := height.tdiv interval
  if q < 0 then 0 else baseSubsidy / 2 ^ q.toNat

/-- CalcBlockSubsidy from validate.go, with explicit fuel for the single level
of self-recursion the source performs at the hard-fork activation height (the
recursive call is at height+1, which never satisfies the activation-height
test again, so the Go recursion depth is at most one; fuel 2 is exact). -/
def CalcBlockSubsidyAux (cfg : Cfg) : Nat → Int → Int → Int
  | 0, _, _ => 0
  | fuel + 1, height, version =>
    if cfg.params.subsidyReductionInterval = 0 then baseSubsidy
    else if GetCurrent cfg.fork height = 0 then
      preForkSubsidy height cfg.params.subsidyReductionInterval
    else
      if (cfg.params.net = Net.mainNet ∧ height = cfg.fork.activationHeight) ∨
         (cfg.params.net = Net.testNet3 ∧ height = cfg.fork.testnetStart) then
        let payees := if cfg.params.net = Net.testNet3 then cfg.hf.testnetPayees
                      else cfg.hf.payees
        (payees.map Payee.amount).sum +
          CalcBlockSubsidyAux cfg fuel (height + 1) version +
          cfg.hf.testnetCoreAmount
      else cfg.decaySubsidy height version

/-- CalcBlockSubsidy from validate.go (see CalcBlockSubsidyAux for the fuel
argument). -/
def CalcBlockSubsidy (cfg : Cfg) (height version : Int) : Int :=
  CalcBlockSubsidyAux cfg 2 height version

/-- Modelled from the spec: txscript.LockTimeThreshold, the fixed constant
below which a lock time is interpreted as a block height and above which it is
a Unix timestamp (the txscript package is outside the sources). -/
def LockTimeThreshold : Nat := 500000000

/-- IsCoinBaseTx from validate.go: exactly one input whose previous outpoint
has the maximal index and the zero hash. -/
def IsCoinBaseTx (msgTx : MsgTx) : Bool :=
  match msgTx.txIn with
  | [txIn0] =>
    decide (txIn0.previousOutPoint.index = maxUint32 ∧
      txIn0.previousOutPoint.hash = zeroHash)
  | _ => false

/-- IsCoinBase from validate.go. -/
def IsCoinBase (tx : Tx) : Bool := IsCoinBaseTx tx.msgTx

/-- isNullOutpoint from validate.go. -/
def isNullOutpoint (outpoint : OutPoint) : Bool :=
  decide (outpoint.index = maxUint32 ∧ outpoint.hash = zeroHash)

/-- IsFinalizedTransaction from validate.go. -/
def IsFinalizedTransaction (tx : Tx) (blockHeight : Int) (blockTime : Int) :
    Bool :=
  let msgTx := tx.msgTx
  let lockTime := msgTx.lockTime
  if lockTime = 0 then true
  else
    let blockTimeOrHeight : Int :=
      if lockTime < LockTimeThreshold then blockHeight else blockTime
    if (lockTime : Int) < blockTimeOrHeight then true
    else msgTx.txIn.all fun txIn => decide (txIn.sequence = maxUint32)

/-- SequenceLock from blockchain: minimum seconds and minimum block height. -/
structure SequenceLock where
  seconds : Int
  blockHeight : Int

/-- SequenceLockActive from validate.go. -/
def SequenceLockActive (sequenceLock : SequenceLock) (blockHeight : Int)
    (medianTimePast : Int) : Bool :=
  if sequenceLock.seconds ≥ medianTimePast ∨
     sequenceLock.blockHeight ≥ blockHeight then false
  else true

/-- checkProofOfWork from validate.go.  The compact-bits decoder
fork.CompactToBig and the per-algorithm block hash BlockHashWithAlgos (with
HashToBig) live outside the sources and are taken as abstract function
parameters; the nil powLimit is modelled as Option. -/
def checkProofOfWork (header : BlockHeader) (powLimit : Option Int)
    (noPowCheck : Bool) (height : Int) (compactToBig : Nat → Int)
    (hashWithAlgos : BlockHeader → Int → Int) : Option VErr :=
  match powLimit with
  | none => some VErr.external
  | some limit =>
    let target := compactToBig header.bits
    if target ≤ 0 then some (VErr.rule ErrorCode.UnexpectedDifficulty)
    else if target > limit then some (VErr.rule ErrorCode.UnexpectedDifficulty)
    else if noPowCheck = false then
      if hashWithAlgos header height > target then
        some (VErr.rule ErrorCode.HighHash)
      else none
    else none

/-- Modelled from the spec: txscript.OP_0, the small-integer push opcode for
zero. -/
def OP_0 : Nat := 0

/-- Modelled from the spec: txscript.OP_1, the small-integer push opcode for
one. -/
def OP_1 : Nat := 81

/-- Modelled from the spec: txscript.OP_16, the small-integer push opcode for
sixteen. -/
def OP_16 : Nat := 96

/-- Little-endian value of a byte list (binary.LittleEndian.Uint64 on the
8-byte buffer). -/
def leUint64 (bytes : List Nat) : Nat :=
  bytes.foldr (fun b acc => b + 256 * acc) 0

/-- The body of ExtractCoinbaseHeight acting on the unlocking script of the
coinbase's first input: a leading small-integer opcode is mapped to 0 or
1..16, otherwise the opcode is a length byte and the source copies at most 8
bytes of the declared height encoding into a zeroed 8-byte buffer, decodes it
little-endian and truncates to int32. -/
def extractHeightFromScript : List Nat → Except VErr Int
  | [] => Except.error (VErr.rule ErrorCode.MissingCoinbaseHeight)
  | opcode :: rest =>
    if opcode = OP_0 then Except.ok 0
    else if OP_1 ≤ opcode ∧ opcode ≤ OP_16 then
      Except.ok ((opcode - (OP_1 - 1) : Nat) : Int)
    else
      let serializedLen := opcode
      if rest.length < serializedLen then
        Except.error (VErr.rule ErrorCode.MissingCoinbaseHeight)
      else
        let copied := (rest.take serializedLen).take 8
        let padded := copied ++ List.replicate (8 - copied.length) 0
        Except.ok (toInt32 (leUint64 padded))

/-- ExtractCoinbaseHeight from validate.go.  Indexing TxIn[0] on an inputless
transaction would panic in Go and is modelled as an assertion failure. -/
def ExtractCoinbaseHeight (coinbaseTx : Tx) : Except VErr Int :=
  match coinbaseTx.msgTx.txIn with
  | [] => Except.error VErr.assert
  | txIn0 :: _ => extractHeightFromScript txIn0.signatureScript

/-- Minimal little-endian byte encoding of a natural number; 8 fuel bytes
suffice for any 32-bit block height. -/
def leBytesAux : Nat → Nat → List Nat
  | 0, _ => []
  | fuel + 1, n => if n = 0 then [] else n % 256 :: leBytesAux fuel (n / 256)

/-- Minimal little-endian byte encoding of a natural number. -/
def leBytes (n : Nat) : List Nat := leBytesAux 8 n

/-- Modelled from the spec: the standard coinbase height encoding that
ExtractCoinbaseHeight inverts — a small-integer opcode for 0 and 1..16,
otherwise a length byte followed by that many little-endian bytes. -/
def encodeCoinbaseHeight (h : Nat) : List Nat :=
  if h = 0 then [OP_0]
  else if h ≤ 16 then [OP_1 + (h - 1)]
  else (leBytes h).length :: leBytes h

/-- A concrete transaction input whose sequence number is maximal, used as a
finalization boundary scenario. -/
def seqTxIn : TxIn where
  previousOutPoint := { hash := 0, index := maxUint32 }
  signatureScript := []
  sequence := maxUint32

/-- A concrete transaction with one maximal-sequence input and a timestamp
lock time that has not yet passed. -/
def seqTx : Tx where
  msgTx :=
    { txIn := [seqTxIn]
      txOut := []
      lockTime := 900000000
      serializedSizeStripped := 0 }
  hash := 1

/-- A concrete block header for the proof-of-work witness. -/
def powHeader : BlockHeader where
  version := 2
  prevBlock := 0
  merkleRoot := 0
  timestamp := 0
  bits := 42

/-- A concrete coinbase transaction whose unlocking script starts with the
standard encoding of height 17 followed by an extra byte. -/
def heightTx : Tx where
  msgTx :=
    { txIn := [{ previousOutPoint := { hash := 0, index := maxUint32 }
                 signatureScript := [1, 17, 9]
                 sequence := maxUint32 }]
      txOut := []
      lockTime := 0
      serializedSizeStripped := 0 }
  hash := 2

/-- A concrete mainnet configuration with distinct core amounts, used to
separate the mainnet core amount from the testnet core amount in the subsidy
claims. -/
def subsidyCexCfg : Cfg where
  params :=
    { genesisHash := 999
      net := Net.mainNet
      bip0034Height := 50
      bip0065Height := 0
      bip0066Height := 0
      coinbaseMaturity := 100
      subsidyReductionInterval := 10 }
  fork := { activationHeight := 100, testnetStart := 200, isTestnet := false }
  hf :=
    { payees := [{ amount := 5, scriptAddress := [] }]
      testnetPayees := []
      coreAmount := 7
      testnetCoreAmount := 3
      corePubkeyBytes := []
      testnetCorePubkeyBytes := [] }
  bip16Activation := 1000
  decaySubsidy := fun _ _ => 11

/-- A concrete testnet configuration with distinct core amounts and payee
lists, used to exercise the testnet half of the hard-fork disbursement
claims. -/
def subsidyTestnetCfg : Cfg where
  params :=
    { genesisHash := 999
      net := Net.testNet3
      bip0034Height := 50
      bip0065Height := 0
      bip0066Height := 0
      coinbaseMaturity := 100
      subsidyReductionInterval := 10 }
  fork := { activationHeight := 100, testnetStart := 200, isTestnet := true }
  hf :=
    { payees := [{ amount := 5, scriptAddress := [] }]
      testnetPayees := [{ amount := 4, scriptAddress := [] }]
      coreAmount := 7
      testnetCoreAmount := 3
      corePubkeyBytes := []
      testnetCorePubkeyBytes := [] }
  bip16Activation := 1000
  decaySubsidy := fun _ _ => 11

/-- The per-input loop of CheckTransactionInputs from validate.go: each input
must reference an existing unspent entry, coinbase entries must have matured,
each referenced amount must be in range, and the int64 accumulator is checked
for wrap-around and for exceeding the maximum supply unit. -/
def inputLoop (chainParams : Params) (txHeight : Int) (view : UtxoViewpoint) :
    List TxIn → Int → Except VErr Int
  | [], totalSatoshiIn => Except.ok totalSatoshiIn
  | txIn :: rest, totalSatoshiIn =>
    match view.entries txIn.previousOutPoint with
    | none => Except.error (VErr.rule ErrorCode.MissingTxOut)
    | some utxo =>
      if utxo.spent then Except.error (VErr.rule ErrorCode.MissingTxOut)
      else if utxo.isCoinBase ∧
          txHeight - utxo.blockHeight < (chainParams.coinbaseMaturity : Int)
        then Except.error (VErr.rule ErrorCode.ImmatureSpend)
      else if utxo.amount < 0 then
        Except.error (VErr.rule ErrorCode.BadTxOutValue)
      else if utxo.amount > MaxSatoshi then
        Except.error (VErr.rule ErrorCode.BadTxOutValue)
      else
        if i64add totalSatoshiIn utxo.amount < totalSatoshiIn ∨
            i64add totalSatoshiIn utxo.amount > MaxSatoshi then
          Except.error (VErr.rule ErrorCode.BadTxOutValue)
        else inputLoop chainParams txHeight view rest
          (i64add totalSatoshiIn utxo.amount)

/-- The output total of a transaction as the source computes it: an unchecked
int64 accumulation. -/
def outputTotal (tx : Tx) : Int :=
  tx.msgTx.txOut.foldl (fun acc txOut => i64add acc txOut.value) 0

/-- CheckTransactionInputs from validate.go: a coinbase transaction is
accepted immediately with fee 0; otherwise the inputs are checked and the fee
is the input total minus the output total (int64 arithmetic). -/
def CheckTransactionInputs (tx : Tx) (txHeight : Int)
    (utxoView : UtxoViewpoint) (chainParams : Params) : Except VErr Int :=
  if IsCoinBase tx then Except.ok 0
  else
    match inputLoop chainParams txHeight utxoView tx.msgTx.txIn 0 with
    | Except.error e => Except.error e
    | Except.ok totalSatoshiIn =>
      if totalSatoshiIn < outputTotal tx then
        Except.error (VErr.rule ErrorCode.SpendTooHigh)
      else Except.ok (i64wrap (totalSatoshiIn - outputTotal tx))

/-- The output-value loop of CheckTransactionSanity from validate.go: each
output amount must be in [0, MaxSatoshi], and the int64 running total must
neither go negative (two's complement wrap detection) nor exceed
MaxSatoshi. -/
def valueLoop : List TxOut → Int → Except VErr Int
  | [], totalSatoshi => Except.ok totalSatoshi
  | txOut :: rest, totalSatoshi =>
    let satoshi := txOut.value
    if satoshi < 0 then Except.error (VErr.rule ErrorCode.BadTxOutValue)
    else if satoshi > MaxSatoshi then
      Except.error (VErr.rule ErrorCode.BadTxOutValue)
    else
      let t := i64add totalSatoshi satoshi
      if t < 0 then Except.error (VErr.rule ErrorCode.BadTxOutValue)
      else if t > MaxSatoshi then
        Except.error (VErr.rule ErrorCode.BadTxOutValue)
      else valueLoop rest t

/-- Duplicate-previous-outpoint detection, mirroring the map-based loop of
CheckTransactionSanity. -/
def hasDuplicateInputs : List TxIn → List OutPoint → Bool
  | [], _ => false
  | txIn :: rest, seen =>
    if txIn.previousOutPoint ∈ seen then true
    else hasDuplicateInputs rest (txIn.previousOutPoint :: seen)

/-- CheckTransactionSanity from validate.go. -/
def CheckTransactionSanity (tx : Tx) : Option VErr :=
  if tx.msgTx.txIn.length = 0 then some (VErr.rule ErrorCode.NoTxInputs)
  else if tx.msgTx.txOut.length = 0 then some (VErr.rule ErrorCode.NoTxOutputs)
  else if tx.msgTx.serializedSizeStripped > MaxBlockBaseSize then
    some (VErr.rule ErrorCode.TxTooBig)
  else
    match valueLoop tx.msgTx.txOut 0 with
    | Except.error e => some e
    | Except.ok _ =>
      if hasDuplicateInputs tx.msgTx.txIn [] then
        some (VErr.rule ErrorCode.DuplicateTxInputs)
      else if IsCoinBase tx then
        let scriptLength := (tx.msgTx.txIn.headD
          { previousOutPoint := { hash := 0, index := 0 }
            signatureScript := []
            sequence := 0 }).signatureScript.length
        if scriptLength < MinCoinbaseScriptLen ∨
            scriptLength > MaxCoinbaseScriptLen then
          some (VErr.rule ErrorCode.BadCoinbaseScriptLen)
        else none
      else if tx.msgTx.txIn.any
          (fun txIn => isNullOutpoint txIn.previousOutPoint) then
        some (VErr.rule ErrorCode.BadTxInput)
      else none

/-- The script verification flag set assembled by checkConnectBlock and
handed to the external script-execution collaborator. -/
structure ScriptFlags where
  bip16 : Bool
  derSig : Bool
  cltv : Bool
  csv : Bool
  witness : Bool
  strictMultiSig : Bool

/-- The BlockChain receiver of checkConnectBlock: the configuration plus the
external collaborators the function calls — the backing UTXO store, the
latest checkpoint, the version-bits threshold states for the segwit and CSV
deployments of the parent node, the parent's past median time, the precise
signature-operation counter, the sequence-lock calculator and the script
execution engine.  All collaborators live outside the sources and are
abstract function-valued fields. -/
structure BlockChain where
  cfg : Cfg
  db : OutPoint → Option UtxoEntry
  checkpointHeight : Option Int
  segwitState : Except VErr ThresholdState
  csvState : Except VErr ThresholdState
  medianTime : Int
  getSigOpCost : Tx → Bool → UtxoViewpoint → Bool → Bool → Except VErr Int
  calcSequenceLock : BlockNode → Tx → UtxoViewpoint → Except VErr SequenceLock
  checkBlockScripts : Block → UtxoViewpoint → ScriptFlags → Except VErr Unit

/-- Numeric value of block91842Hash, one of the two BIP0030-grandfathered
blocks of validate.go. -/
def block91842Hash : Hash :=
  0x00000000000a4d0a398161ffc163c503763b1f4360639393e0e4c8e300e0caec

/-- Numeric value of block91880Hash, the other BIP0030-grandfathered block of
validate.go. -/
def block91880Hash : Hash :=
  0x00000000000743f190a18c5577a3c2d2a1f610ae9601ac046a38084ccb7cd721

/-- isBIP0030Node from validate.go. -/
def isBIP0030Node (node : BlockNode) : Bool :=
  decide ((node.height = 91842 ∧ node.hash = block91842Hash) ∨
    (node.height = 91880 ∧ node.hash = block91880Hash))

/-- The output keys of every transaction of a block — the fetch set built by
checkBIP0030. -/
def blockOutPoints (block : Block) : List OutPoint :=
  (block.transactions.map fun tx =>
    (List.range tx.msgTx.txOut.length).map fun txOutIdx =>
      ({ hash := tx.hash, index := txOutIdx } : OutPoint)).flatten

/-- Modelled from the spec: UtxoViewpoint.fetchUtxos (outside the sources)
loads the requested keys from the backing store into the view; keys already
present are left as they are, and absence is no entry, never an error. -/
def fetchUtxos (db : OutPoint → Option UtxoEntry) (keys : List OutPoint)
    (view : UtxoViewpoint) : UtxoViewpoint :=
  { view with
    entries := fun op =>
      if op ∈ keys then
        match view.entries op with
        | some utxo => some utxo
        | none => db op
      else view.entries op }

/-- The input keys of every transaction of a block. -/
def blockInputOutPoints (block : Block) : List OutPoint :=
  (block.transactions.map fun tx =>
    tx.msgTx.txIn.map TxIn.previousOutPoint).flatten

/-- Modelled from the spec: UtxoViewpoint.fetchInputUtxos (outside the
sources) populates the view with the entries referenced by the block's
transaction inputs from the backing store. -/
def fetchInputUtxos (db : OutPoint → Option UtxoEntry) (block : Block)
    (view : UtxoViewpoint) : UtxoViewpoint :=
  fetchUtxos db (blockInputOutPoints block) view

/-- The duplicate-unspent-output test of checkBIP0030: after fetching, some
output key of the block maps to an entry that is not fully spent.  The Go
source iterates a set in unspecified order; only whether some violating key
exists determines the outcome. -/
def hasBip30Conflict (db : OutPoint → Option UtxoEntry) (block : Block)
    (view : UtxoViewpoint) : Bool :=
  ((fetchUtxos db (blockOutPoints block) view).entries <$> blockOutPoints
    block).any fun entry =>
      match entry with
      | some utxo => ! utxo.spent
      | none => false

/-- checkBIP0030 from validate.go: fetch the utxos for all of the block's
output keys and fail OverwriteTx if any existing entry is not fully spent. -/
def checkBIP0030 (db : OutPoint → Option UtxoEntry) (block : Block)
    (view : UtxoViewpoint) : Option VErr × UtxoViewpoint :=
  if hasBip30Conflict db block view then
    (some (VErr.rule ErrorCode.OverwriteTx),
      fetchUtxos db (blockOutPoints block) view)
  else (none, fetchUtxos db (blockOutPoints block) view)

/-- The signature-operation cost loop of checkConnectBlock: the external
GetSigOpCost collaborator is consulted per transaction (the head of the block
is flagged as the coinbase), and the int64 accumulator is checked for
wrap-around and against the per-block maximum. -/
def sigOpLoop (gso : Tx → Bool → UtxoViewpoint → Bool → Bool →
    Except VErr Int) (view : UtxoViewpoint) (b16 sw : Bool) :
    Bool → Int → List Tx → Except VErr Int
  | _, totalSigOpCost, [] => Except.ok totalSigOpCost
  | isFirst, totalSigOpCost, tx :: rest =>
    match gso tx isFirst view b16 sw with
    | Except.error e => Except.error e
    | Except.ok sigOpCost =>
      if i64add totalSigOpCost sigOpCost < totalSigOpCost ∨
          i64add totalSigOpCost sigOpCost > MaxBlockSigOpsCost then
        Except.error (VErr.rule ErrorCode.TooManySigOps)
      else sigOpLoop gso view b16 sw false
        (i64add totalSigOpCost sigOpCost) rest

/-- Modelled from the spec: the input-spending half of
UtxoViewpoint.connectTransaction (outside the sources) — every input's entry
must be present in the view and is marked spent (tombstoned, not deleted); a
missing entry is a programmer-error assertion. -/
def spendInputs : List TxIn → UtxoViewpoint → Except VErr UtxoViewpoint
  | [], view => Except.ok view
  | txIn :: rest, view =>
    match view.entries txIn.previousOutPoint with
    | none => Except.error VErr.assert
    | some utxo =>
      spendInputs rest
        { view with
          entries := fun op =>
            if op = txIn.previousOutPoint then some { utxo with spent := true }
            else view.entries op }

/-- Modelled from the spec: the output-adding half of
UtxoViewpoint.connectTransaction (outside the sources) — every output of the
transaction becomes a fresh unspent entry at the connecting height. -/
def addTxOuts (tx : Tx) (height : Int) (view : UtxoViewpoint) :
    UtxoViewpoint :=
  { view with
    entries := fun op =>
      if op.hash = tx.hash then
        match tx.msgTx.txOut[op.index]? with
        | some txOut =>
          some { amount := txOut.value
                 pkScript := txOut.pkScript
                 blockHeight := height
                 isCoinBase := IsCoinBase tx
                 spent := false }
        | none => view.entries op
      else view.entries op }

/-- Modelled from the spec: UtxoViewpoint.connectTransaction (outside the
sources) — spend the inputs (unless coinbase) and add the outputs. -/
def connectTransaction (tx : Tx) (height : Int) (view : UtxoViewpoint) :
    Except VErr UtxoViewpoint :=
  if IsCoinBase tx then Except.ok (addTxOuts tx height view)
  else
    match spendInputs tx.msgTx.txIn view with
    | Except.error e => Except.error e
    | Except.ok v => Except.ok (addTxOuts tx height v)

/-- The fee-accumulation/connect loop of checkConnectBlock: per transaction,
CheckTransactionInputs, the int64 overflow check on the fee total, then
connectTransaction on the view. -/
def connectLoop (b : BlockChain) (node : BlockNode) :
    List Tx → Int → UtxoViewpoint → Except VErr Int × UtxoViewpoint
  | [], totalFees, view => (Except.ok totalFees, view)
  | tx :: rest, totalFees, view =>
    match CheckTransactionInputs tx node.height view b.cfg.params with
    | Except.error e => (Except.error e, view)
    | Except.ok txFee =>
      if i64add totalFees txFee < totalFees then
        (Except.error (VErr.rule ErrorCode.BadFees), view)
      else
        match connectTransaction tx node.height view with
        | Except.error e => (Except.error e, view)
        | Except.ok v2 => connectLoop b node rest (i64add totalFees txFee) v2

/-- The CSV sequence-lock loop of checkConnectBlock: per transaction, the
external sequence-lock calculator is consulted and the lock must be active
relative to the node height and the parent's median time. -/
def csvLoop (b : BlockChain) (node : BlockNode) (view : UtxoViewpoint) :
    List Tx → Option VErr
  | [] => none
  | tx :: rest =>
    match b.calcSequenceLock node tx view with
    | Except.error e => some e
    | Except.ok sequenceLock =>
      if SequenceLockActive sequenceLock node.height b.medianTime then
        csvLoop b node view rest
      else some (VErr.rule ErrorCode.UnfinalizedTx)

/-- The payee loop of the hard-fork coinbase check of checkConnectBlock: each
listed payee must be paid its exact amount and the bytes 3..22 of the locking
script must match the payee's script address.  Go panics on out-of-range
indexing or slicing are modelled as assertion failures. -/
def payeeLoop : List Payee → List TxOut → Option VErr
  | [], _ => none
  | _ :: _, [] => some VErr.assert
  | payee :: ps, txo :: ts =>
    if txo.value ≠ payee.amount then
      some (VErr.rule ErrorCode.BadCoinbaseValue)
    else if txo.pkScript.length < 23 then some VErr.assert
    else if payee.scriptAddress.length < 20 then some VErr.assert
    else if (txo.pkScript.drop 3).take 20 ≠ payee.scriptAddress.take 20 then
      some (VErr.rule ErrorCode.BadCoinbaseValue)
    else payeeLoop ps ts

/-- The core-pubkey loop of the hard-fork coinbase check: each configured
core public key must appear consecutively (length-prefixed) in the remaining
script.  The source advances past a one-byte length prefix after every key;
when the remainder is exactly the key, Go would panic on the re-slice, which
is modelled as an empty remainder. -/
def corePubkeyLoop : List (List Nat) → List Nat → Option VErr
  | [], _ => none
  | pk :: pks, remainder =>
    if remainder.length < pk.length then
      some (VErr.rule ErrorCode.BadCoinbaseValue)
    else if remainder.take pk.length ≠ pk then
      some (VErr.rule ErrorCode.BadCoinbaseValue)
    else corePubkeyLoop pks (remainder.drop (pk.length + 1))

/-- The network's payee list as selected by the hard-fork coinbase check. -/
def hfPayees (cfg : Cfg) : List Payee :=
  if cfg.params.net = Net.testNet3 then cfg.hf.testnetPayees else cfg.hf.payees

/-- The network's core development amount as selected by the hard-fork
coinbase check. -/
def hfCoreAmount (cfg : Cfg) : Int :=
  if cfg.params.net = Net.testNet3 then cfg.hf.testnetCoreAmount
  else cfg.hf.coreAmount

/-- The network's core public keys as selected by the hard-fork coinbase
check. -/
def hfCorePubkeys (cfg : Cfg) : List (List Nat) :=
  if cfg.params.net = Net.testNet3 then cfg.hf.testnetCorePubkeyBytes
  else cfg.hf.corePubkeyBytes

/-- The network's hard-fork activation height: fork.List[1].TestnetStart on
testnet and fork.List[1].ActivationHeight on mainnet. -/
def hfActivationHeight (cfg : Cfg) : Int :=
  if cfg.params.net = Net.testNet3 then cfg.fork.testnetStart
  else cfg.fork.activationHeight

/-- The hard-fork activation-height coinbase structural check of
checkConnectBlock: the payee outputs, the core-fund output value and the
embedded core public keys must match the hardfork configuration. -/
def hardforkCoinbaseCheck (cfg : Cfg) (block : Block) : Option VErr :=
  match block.transactions.head? with
  | none => some VErr.assert
  | some btx =>
    match payeeLoop (hfPayees cfg) btx.msgTx.txOut with
    | some e => some e
    | none =>
      match (btx.msgTx.txOut.drop (hfPayees cfg).length).head? with
      | none => some VErr.assert
      | some devOut =>
        if devOut.value ≠ hfCoreAmount cfg then
          some (VErr.rule ErrorCode.BadCoinbaseValue)
        else if devOut.pkScript.length < 2 then some VErr.assert
        else corePubkeyLoop (hfCorePubkeys cfg) (devOut.pkScript.drop 2)

/-- The checkpoint-gated script-run decision of checkConnectBlock: scripts
run unless the node is at or below the latest checkpoint height. -/
def runScriptsFlag (b : BlockChain) (node : BlockNode) : Bool :=
  match b.checkpointHeight with
  | some checkpointH => decide (¬ node.height ≤ checkpointH)
  | none => true

/-- The script flag set assembled by checkConnectBlock from the activation
conditions of the source: Bip16, BIP0066 DER signatures (block versions 3+),
BIP0065 CHECKLOCKTIMEVERIFY (block versions 4+), CSV, and the segwit
flags. -/
def assembleScriptFlags (b : BlockChain) (node : BlockNode) (block : Block)
    (enforceBIP0016 enforceSegWit : Bool) (csvSt : ThresholdState) :
    ScriptFlags where
  bip16 := enforceBIP0016
  derSig := decide (block.header.version ≥ 3 ∧
    node.height ≥ b.cfg.params.bip0066Height)
  cltv := decide (block.header.version ≥ 4 ∧
    node.height ≥ b.cfg.params.bip0065Height)
  csv := decide (csvSt = ThresholdState.active)
  witness := enforceSegWit
  strictMultiSig := enforceSegWit

/-- The condition under which checkConnectBlock applies the hard-fork
coinbase structural check: the network's activation height. -/
def atHardforkHeight (cfg : Cfg) (node : BlockNode) : Prop :=
  (node.height = cfg.fork.activationHeight ∧ cfg.params.net = Net.mainNet) ∨
  (node.height = cfg.fork.testnetStart ∧ cfg.params.net = Net.testNet3)

instance (cfg : Cfg) (node : BlockNode) : Decidable (atHardforkHeight cfg
    node) := by
  unfold atHardforkHeight
  infer_instance

/-- The tail of checkConnectBlock after the connect loop: the coinbase-value
bound against subsidy plus fees, the hard-fork structural coinbase check at
the activation height, the CSV deployment state with its sequence-lock loop,
and the checkpoint-gated script execution collaborator.  None of these steps
mutates the view. -/
def postConnectChecks (b : BlockChain) (node : BlockNode) (block : Block)
    (v3 : UtxoViewpoint) (enforceBIP0016 enforceSegWit : Bool)
    (totalFees : Int) : Option VErr :=
  match block.transactions.head? with
  | none => some VErr.assert
  | some coinbase =>
    if outputTotal coinbase >
        i64add (CalcBlockSubsidy b.cfg node.height node.version) totalFees then
      some (VErr.rule ErrorCode.BadCoinbaseValue)
    else
      match (if atHardforkHeight b.cfg node then
              hardforkCoinbaseCheck b.cfg block
            else none) with
      | some e => some e
      | none =>
        match b.csvState with
        | Except.error e => some e
        | Except.ok csvSt =>
          match (if csvSt = ThresholdState.active then
                  csvLoop b node v3 block.transactions
                else none) with
          | some e => some e
          | none =>
            match (if runScriptsFlag b node then
                    b.checkBlockScripts block v3 (assembleScriptFlags b node
                      block enforceBIP0016 enforceSegWit csvSt)
                  else Except.ok ()) with
            | Except.error e => some e
            | Except.ok _ => none

/-- The part of checkConnectBlock that follows the BIP0030 step: fetch the
input utxos into the view, query the segwit deployment, count signature
operations, run the fee/connect loop and the post-connect checks, and on
success advance the view's best hash to the node's hash. -/
def checkConnectBlockRest (b : BlockChain) (node : BlockNode) (block : Block)
    (v1 : UtxoViewpoint) : Option VErr × UtxoViewpoint :=
  match b.segwitState with
  | Except.error e => (some e, fetchInputUtxos b.db block v1)
  | Except.ok segwitSt =>
    match sigOpLoop b.getSigOpCost (fetchInputUtxos b.db block v1)
        (decide (node.timestamp ≥ b.cfg.bip16Activation))
        (decide (segwitSt = ThresholdState.active)) true 0
        block.transactions with
    | Except.error e => (some e, fetchInputUtxos b.db block v1)
    | Except.ok _ =>
      match connectLoop b node block.transactions 0
          (fetchInputUtxos b.db block v1) with
      | (Except.error e, v3) => (some e, v3)
      | (Except.ok totalFees, v3) =>
        match postConnectChecks b node block v3
            (decide (node.timestamp ≥ b.cfg.bip16Activation))
            (decide (segwitSt = ThresholdState.active)) totalFees with
        | some e => (some e, v3)
        | none => (none, { v3 with bestHash := node.hash })

/-- checkConnectBlock from validate.go: the genesis guard, the best-hash
consistency assertion, the gated BIP0030 duplicate-output check, and the rest
of the pipeline. -/
def checkConnectBlock (b : BlockChain) (node : BlockNode) (block : Block)
    (view : UtxoViewpoint) : Option VErr × UtxoViewpoint :=
  if node.hash = b.cfg.params.genesisHash then
    (some (VErr.rule ErrorCode.MissingTxOut), view)
  else if view.bestHash ≠ block.header.prevBlock then (some VErr.assert, view)
  else
    match (if isBIP0030Node node = false ∧
              node.height < b.cfg.params.bip0034Height then
            checkBIP0030 b.db block view
          else (none, view)) with
    | (some e, v1) => (some e, v1)
    | (none, v1) => checkConnectBlockRest b node block v1

/-- A concrete chain-parameter record for the maturity witness: coinbase
maturity 100. -/
def maturityParams : Params where
  genesisHash := 999
  net := Net.mainNet
  bip0034Height := 50
  bip0065Height := 0
  bip0066Height := 0
  coinbaseMaturity := 100
  subsidyReductionInterval := 10

/-- A concrete coinbase UTXO entry originating at height 20. -/
def maturityEntry : UtxoEntry where
  amount := 1000
  pkScript := []
  blockHeight := 20
  isCoinBase := true
  spent := false

/-- A concrete view holding only the coinbase entry maturityEntry at outpoint
(77, 0). -/
def maturityView : UtxoViewpoint where
  entries := fun op =>
    if op = { hash := 77, index := 0 } then some maturityEntry else none
  bestHash := 7

/-- A concrete single-input non-coinbase transaction spending the coinbase
outpoint (77, 0). -/
def maturityTx : Tx where
  msgTx :=
    { txIn := [{ previousOutPoint := { hash := 77, index := 0 }
                 signatureScript := []
                 sequence := 0 }]
      txOut := [{ value := 900, pkScript := [] }]
      lockTime := 0
      serializedSizeStripped := 10 }
  hash := 3

/-- A concrete coinbase transaction for the coinbase-fee witness. -/
def coinbaseTx10 : Tx where
  msgTx :=
    { txIn := [{ previousOutPoint := { hash := zeroHash, index := maxUint32 }
                 signatureScript := [0, 0]
                 sequence := maxUint32 }]
      txOut := [{ value := 200000000, pkScript := [] }]
      lockTime := 0
      serializedSizeStripped := 30 }
  hash := 4

/-- A concrete transaction with an over-maximum output amount for the sanity
witness. -/
def badValueTx : Tx where
  msgTx :=
    { txIn := [{ previousOutPoint := { hash := 5, index := 0 }
                 signatureScript := []
                 sequence := 0 }]
      txOut := [{ value := 2100000000000001, pkScript := [] }]
      lockTime := 0
      serializedSizeStripped := 10 }
  hash := 5

/-- A concrete configuration used by the block-connection scenarios: mainnet,
genesis hash 999, BIP0034 activation at height 50, Bip16 activation at
timestamp 1000, hard fork far away. -/
def connectCfg : Cfg where
  params :=
    { genesisHash := 999
      net := Net.mainNet
      bip0034Height := 50
      bip0065Height := 0
      bip0066Height := 0
      coinbaseMaturity := 100
      subsidyReductionInterval := 10 }
  fork :=
    { activationHeight := 1000000, testnetStart := 1000000, isTestnet := false }
  hf :=
    { payees := []
      testnetPayees := []
      coreAmount := 0
      testnetCoreAmount := 0
      corePubkeyBytes := []
      testnetCorePubkeyBytes := [] }
  bip16Activation := 1000
  decaySubsidy := fun _ _ => 0

/-- A concrete BlockChain whose external collaborators always succeed
trivially. -/
def connectChain : BlockChain where
  cfg := connectCfg
  db := fun _ => none
  checkpointHeight := none
  segwitState := Except.ok ThresholdState.defined
  csvState := Except.ok ThresholdState.defined
  medianTime := 0
  getSigOpCost := fun _ _ _ _ _ => Except.ok 0
  calcSequenceLock := fun _ _ _ =>
    Except.ok { seconds := -1, blockHeight := -1 }
  checkBlockScripts := fun _ _ _ => Except.ok ()

/-- A concrete node at height 40 (below BIP0034 activation) whose timestamp
2000 is past the Bip16 (pay-to-script-hash) activation time 1000. -/
def bip30Node : BlockNode where
  hash := 1
  height := 40
  timestamp := 2000
  version := 2

/-- A concrete coinbase-only transaction whose hash collides with an unspent
view entry. -/
def bip30Tx : Tx where
  msgTx :=
    { txIn := [{ previousOutPoint := { hash := zeroHash, index := maxUint32 }
                 signatureScript := [0, 0]
                 sequence := maxUint32 }]
      txOut := [{ value := 0, pkScript := [] }]
      lockTime := 0
      serializedSizeStripped := 10 }
  hash := 55

/-- A concrete block containing only bip30Tx, on parent hash 7. -/
def bip30Block : Block where
  header :=
    { version := 2, prevBlock := 7, merkleRoot := 0, timestamp := 2000
      bits := 0 }
  transactions := [bip30Tx]
  hash := 1

/-- A concrete view at parent hash 7 that already holds an unspent entry
under the output key (55, 0) that bip30Tx would recreate. -/
def bip30View : UtxoViewpoint where
  entries := fun op =>
    if op = { hash := 55, index := 0 } then
      some { amount := 1, pkScript := [], blockHeight := 5, isCoinBase := false
             spent := false }
    else none
  bestHash := 7

/-- A concrete node whose hash equals the configured genesis hash, used for
the frame-effect witness. -/
def genesisNode : BlockNode where
  hash := 999
  height := 1
  timestamp := 2000
  version := 2

/-- C3: before the hard fork (era 0) with a positive subsidy reduction
interval, CalcBlockSubsidy returns baseSubsidy right-shifted by the truncating
integer quotient height / SubsidyReductionInterval; in particular it returns
baseSubsidy at height 0 and baseSubsidy >> 1 at height equal to the halving
interval. -/
theorem calcBlockSubsidy_preFork (cfg : Cfg) (v h : Int)
    (hival : 0 < cfg.params.subsidyReductionInterval)
    (hh : 0 ≤ h)
    (hera : GetCurrent cfg.fork h = 0) :
    CalcBlockSubsidy cfg h v =
      baseSubsidy / 2 ^ (h.tdiv cfg.params.subsidyReductionInterval).toNat ∧
    (h = 0 → CalcBlockSubsidy cfg h v = baseSubsidy) ∧
    (h = cfg.params.subsidyReductionInterval →
      CalcBlockSubsidy cfg h v = baseSubsidy / 2) := by
  have hne : cfg.params.subsidyReductionInterval ≠ 0 := hival.ne'
  have hq : 0 ≤ h.tdiv cfg.params.subsidyReductionInterval :=
    Int.tdiv_nonneg hh hival.le
  have hmain : CalcBlockSubsidy cfg h v =
      baseSubsidy / 2 ^ (h.tdiv cfg.params.subsidyReductionInterval).toNat := by
    unfold CalcBlockSubsidy CalcBlockSubsidyAux preForkSubsidy
    rw [if_neg hne, if_pos hera]
    simp only []
    rw [if_neg (not_lt.mpr hq)]
  refine ⟨hmain, ?_, ?_⟩
  · intro h0
    subst h0
    rw [hmain]
    simp [Int.zero_tdiv, baseSubsidy, satoshiPerBitcoin]
  · intro hI
    subst hI
    rw [hmain, Int.tdiv_self hne]
    rfl

/-- Witness for calcBlockSubsidy_preFork at a concrete configuration:
heights 0 and 10 with interval 10. -/
theorem calcBlockSubsidy_preFork_witness :
    CalcBlockSubsidy subsidyCexCfg 10 0 =
      baseSubsidy / 2 ^ ((10 : Int).tdiv
        subsidyCexCfg.params.subsidyReductionInterval).toNat :=
  (calcBlockSubsidy_preFork subsidyCexCfg 0 10 (by decide) (by decide)
    (by decide)).1

/-- Helper: at an activation height A characterized by the era function and
by the network condition of the source, CalcBlockSubsidy pays the network's
payee sum plus the next height's subsidy plus TestnetCoreAmount, and away
from A the pre-fork shift formula or the decay formula applies. -/
theorem calcBlockSubsidy_activation_general (cfg : Cfg) (v A : Int)
    (hival : cfg.params.subsidyReductionInterval ≠ 0)
    (hera : ∀ h : Int, GetCurrent cfg.fork h = 0 ↔ h < A)
    (hcond : ∀ h : Int, ((cfg.params.net = Net.mainNet ∧
        h = cfg.fork.activationHeight) ∨
      (cfg.params.net = Net.testNet3 ∧ h = cfg.fork.testnetStart)) ↔
      h = A) :
    CalcBlockSubsidy cfg A v =
      ((hfPayees cfg).map Payee.amount).sum +
        CalcBlockSubsidy cfg (A + 1) v + cfg.hf.testnetCoreAmount ∧
    CalcBlockSubsidy cfg (A + 1) v = cfg.decaySubsidy (A + 1) v ∧
    (∀ h : Int, h ≠ A → CalcBlockSubsidy cfg h v =
      if h < A then preForkSubsidy h cfg.params.subsidyReductionInterval
      else cfg.decaySubsidy h v) := by
  have hA : GetCurrent cfg.fork A ≠ 0 := by
    intro h0
    exact absurd ((hera A).mp h0) (lt_irrefl A)
  have hA1 : GetCurrent cfg.fork (A + 1) ≠ 0 := by
    intro h0
    have := (hera (A + 1)).mp h0
    omega
  have hnext : ∀ fuel : Nat, CalcBlockSubsidyAux cfg (fuel + 1) (A + 1) v =
      cfg.decaySubsidy (A + 1) v := by
    intro fuel
    unfold CalcBlockSubsidyAux
    rw [if_neg hival, if_neg hA1, if_neg]
    intro hc
    have := (hcond (A + 1)).mp hc
    omega
  refine ⟨?_, hnext 1, ?_⟩
  · show CalcBlockSubsidyAux cfg 2 A v = _
    unfold CalcBlockSubsidyAux
    rw [if_neg hival, if_neg hA, if_pos ((hcond A).mpr rfl)]
    simp only [CalcBlockSubsidy, hnext 0, hnext 1, hfPayees]
  · intro h hne
    by_cases hlt : h < A
    · show CalcBlockSubsidyAux cfg 2 h v = _
      unfold CalcBlockSubsidyAux
      rw [if_neg hival, if_pos ((hera h).mpr hlt), if_pos hlt]
    · show CalcBlockSubsidyAux cfg 2 h v = _
      unfold CalcBlockSubsidyAux
      rw [if_neg hival, if_neg (fun h0 => hlt ((hera h).mp h0)),
        if_neg (fun hc => hne ((hcond h).mp hc)), if_neg hlt]

/-- C2 (amended): on each network, at the network's hard-fork activation
height (TestnetStart on testnet, ActivationHeight on mainnet) and only there,
CalcBlockSubsidy returns the sum of the network's fixed payee list's amounts,
plus the regular subsidy computed for the next height, plus the hardfork
package's testnet core-development amount (TestnetCoreAmount is used by the
source on both networks); away from the activation height the pre-fork shift
formula or the post-fork decay formula applies. -/
theorem calcBlockSubsidy_hardforkHeight (cfg : Cfg) (v : Int)
    (hival : cfg.params.subsidyReductionInterval ≠ 0)
    (hnets : (cfg.params.net = Net.mainNet ∧ cfg.fork.isTestnet = false) ∨
      (cfg.params.net = Net.testNet3 ∧ cfg.fork.isTestnet = true)) :
    CalcBlockSubsidy cfg (hfActivationHeight cfg) v =
      ((hfPayees cfg).map Payee.amount).sum +
        CalcBlockSubsidy cfg (hfActivationHeight cfg + 1) v +
        cfg.hf.testnetCoreAmount ∧
    CalcBlockSubsidy cfg (hfActivationHeight cfg + 1) v =
      cfg.decaySubsidy (hfActivationHeight cfg + 1) v ∧
    (∀ h : Int, h ≠ hfActivationHeight cfg →
      CalcBlockSubsidy cfg h v =
        if h < hfActivationHeight cfg then
          preForkSubsidy h cfg.params.subsidyReductionInterval
        else cfg.decaySubsidy h v) := by
  rcases hnets with ⟨hnet, htn⟩ | ⟨hnet, htn⟩
  · have hAH : hfActivationHeight cfg = cfg.fork.activationHeight := by
      unfold hfActivationHeight
      rw [hnet]
      simp
    rw [hAH]
    apply calcBlockSubsidy_activation_general cfg v cfg.fork.activationHeight
      hival
    · intro h
      unfold GetCurrent
      rw [htn]
      simp only [Bool.false_eq_true, if_false]
      constructor
      · intro h0
        by_contra hge
        rw [if_pos (by omega)] at h0
        exact one_ne_zero h0
      · intro hlt
        rw [if_neg (by omega)]
    · intro h
      constructor
      · rintro (⟨_, hh⟩ | ⟨hc, _⟩)
        · exact hh
        · rw [hnet] at hc
          exact Net.noConfusion hc
      · intro hh
        exact Or.inl ⟨hnet, hh⟩
  · have hAH : hfActivationHeight cfg = cfg.fork.testnetStart := by
      unfold hfActivationHeight
      rw [hnet]
      simp
    rw [hAH]
    apply calcBlockSubsidy_activation_general cfg v cfg.fork.testnetStart
      hival
    · intro h
      unfold GetCurrent
      rw [htn]
      rw [if_pos rfl]
      constructor
      · intro h0
        by_contra hge
        rw [if_pos (by omega)] at h0
        exact one_ne_zero h0
      · intro hlt
        rw [if_neg (by omega)]
    · intro h
      constructor
      · rintro (⟨hc, _⟩ | ⟨_, hh⟩)
        · rw [hnet] at hc
          exact Net.noConfusion hc
        · exact hh
      · intro hh
        exact Or.inr ⟨hnet, hh⟩

/-- Witness for calcBlockSubsidy_hardforkHeight at the concrete testnet
configuration subsidyTestnetCfg (testnet start 200, testnet payee amount 4,
decay value 11, testnet core amount 3). -/
theorem calcBlockSubsidy_hardforkHeight_witness :
    CalcBlockSubsidy subsidyTestnetCfg
        (hfActivationHeight subsidyTestnetCfg) 0 =
      ((hfPayees subsidyTestnetCfg).map Payee.amount).sum +
        CalcBlockSubsidy subsidyTestnetCfg
          (hfActivationHeight subsidyTestnetCfg + 1) 0 +
        subsidyTestnetCfg.hf.testnetCoreAmount :=
  (calcBlockSubsidy_hardforkHeight subsidyTestnetCfg 0 (by decide)
    (Or.inr ⟨rfl, rfl⟩)).1

/-- Counterexample to C2 as stated: at the concrete mainnet configuration
subsidyCexCfg, whose core amount (7) differs from its testnet core amount (3),
the subsidy at the activation height (height 100) is NOT the payee sum plus
the next height's subsidy plus the mainnet CoreAmount — the source adds
TestnetCoreAmount on mainnet as well. -/
theorem calcBlockSubsidy_coreAmount_cex :
    CalcBlockSubsidy subsidyCexCfg 100 0 ≠
      (subsidyCexCfg.hf.payees.map Payee.amount).sum +
        CalcBlockSubsidy subsidyCexCfg 101 0 +
        subsidyCexCfg.hf.coreAmount := by decide

/-- C4: IsFinalizedTransaction returns true exactly when the lock time is 0,
or the lock time (interpreted as a height when below the lock-time threshold
and as a timestamp otherwise) is strictly less than the corresponding current
value, or every input's sequence number is the maximal uint32 value; in
particular a transaction whose only input has the maximal sequence value is
finalized regardless of lock time. -/
theorem isFinalizedTransaction_iff (tx : Tx) (blockHeight blockTime : Int) :
    (IsFinalizedTransaction tx blockHeight blockTime = true ↔
      (tx.msgTx.lockTime = 0 ∨
        (tx.msgTx.lockTime : Int) <
          (if tx.msgTx.lockTime < LockTimeThreshold then blockHeight
           else blockTime) ∨
        ∀ txIn ∈ tx.msgTx.txIn, txIn.sequence = maxUint32)) ∧
    (∀ txIn0 : TxIn, tx.msgTx.txIn = [txIn0] → txIn0.sequence = maxUint32 →
      IsFinalizedTransaction tx blockHeight blockTime = true) := by
  have hchar : IsFinalizedTransaction tx blockHeight blockTime = true ↔
      (tx.msgTx.lockTime = 0 ∨
        (tx.msgTx.lockTime : Int) <
          (if tx.msgTx.lockTime < LockTimeThreshold then blockHeight
           else blockTime) ∨
        ∀ txIn ∈ tx.msgTx.txIn, txIn.sequence = maxUint32) := by
    unfold IsFinalizedTransaction
    by_cases h0 : tx.msgTx.lockTime = 0
    · simp [h0]
    · by_cases hlt : (tx.msgTx.lockTime : Int) <
          (if tx.msgTx.lockTime < LockTimeThreshold then blockHeight
           else blockTime)
      · simp [h0, hlt]
      · simp [h0, hlt, List.all_eq_true]
  refine ⟨hchar, fun txIn0 heq hseq => hchar.mpr (Or.inr (Or.inr ?_))⟩
  intro txIn hmem
  rw [heq, List.mem_singleton] at hmem
  exact hmem ▸ hseq

/-- Witness for isFinalizedTransaction_iff: the concrete single-input
transaction seqTx with maximal sequence is finalized although its timestamp
lock time (900000000) is far beyond the current block time. -/
theorem isFinalizedTransaction_iff_witness :
    IsFinalizedTransaction seqTx 5 5 = true :=
  (isFinalizedTransaction_iff seqTx 5 5).2 seqTxIn rfl rfl

/-- C5: with a supplied powLimit, checkProofOfWork fails UnexpectedDifficulty
exactly when the decoded target is not strictly positive or exceeds powLimit;
unless the no-proof-of-work-check flag is set it fails HighHash exactly when
the block's hash-with-algorithms value exceeds the target; otherwise it
succeeds. -/
theorem checkProofOfWork_characterization (header : BlockHeader) (limit : Int)
    (noPow : Bool) (height : Int) (compactToBig : Nat → Int)
    (hashWithAlgos : BlockHeader → Int → Int) :
    (checkProofOfWork header (some limit) noPow height compactToBig
        hashWithAlgos = some (VErr.rule ErrorCode.UnexpectedDifficulty) ↔
      compactToBig header.bits ≤ 0 ∨ compactToBig header.bits > limit) ∧
    (checkProofOfWork header (some limit) noPow height compactToBig
        hashWithAlgos = some (VErr.rule ErrorCode.HighHash) ↔
      noPow = false ∧ 0 < compactToBig header.bits ∧
        compactToBig header.bits ≤ limit ∧
        hashWithAlgos header height > compactToBig header.bits) ∧
    (checkProofOfWork header (some limit) noPow height compactToBig
        hashWithAlgos = none ↔
      0 < compactToBig header.bits ∧ compactToBig header.bits ≤ limit ∧
        (noPow = true ∨ hashWithAlgos header height ≤ compactToBig
          header.bits)) := by
  by_cases h1 : compactToBig header.bits ≤ 0 <;>
    by_cases h2 : compactToBig header.bits > limit <;>
    cases noPow <;>
    by_cases h3 : hashWithAlgos header height > compactToBig header.bits <;>
    simp [checkProofOfWork, h1, h2, h3] <;>
    omega

/-- Witness for checkProofOfWork_characterization: a concrete header whose
target decodes to 5 with limit 10 and hash value 3 passes the check. -/
theorem checkProofOfWork_characterization_witness :
    checkProofOfWork powHeader (some 10) false 0 (fun _ => 5)
      (fun _ _ => 3) = none :=
  (checkProofOfWork_characterization powHeader 10 false 0 (fun _ => 5)
    (fun _ _ => 3)).2.2.mpr (by norm_num)

/-- Helper: the length-prefixed path of extractHeightFromScript reads exactly
the declared bytes (at most 8 of them) and zero-pads the decode buffer. -/
theorem extractHeightFromScript_lenPrefixed (bytes suffix : List Nat)
    (hne : bytes.length ≠ OP_0)
    (hsmall : ¬(OP_1 ≤ bytes.length ∧ bytes.length ≤ OP_16))
    (hlen : bytes.length ≤ 8) :
    extractHeightFromScript (bytes.length :: (bytes ++ suffix)) =
      Except.ok (toInt32 (leUint64
        (bytes ++ List.replicate (8 - bytes.length) 0))) := by
  simp only [extractHeightFromScript]
  rw [if_neg hne, if_neg hsmall,
    if_neg (not_lt.mpr (by rw [List.length_append]; omega))]
  have htake : (bytes ++ suffix).take bytes.length = bytes :=
    List.take_left bytes suffix
  simp only [htake, List.take_of_length_le hlen]

/-- C6: ExtractCoinbaseHeight is a left-inverse of the standard coinbase
height encoding for heights 0, 1, 16, 17, 2^20 and 2^31-1 (the encoding may
be followed by arbitrary further script bytes), and an empty unlocking script
or one shorter than its declared length fails MissingCoinbaseHeight. -/
theorem extractCoinbaseHeight_leftInverse :
    (∀ H ∈ ([0, 1, 16, 17, 1048576, 2147483647] : List Nat),
      ∀ (suffix : List Nat) (tx : Tx) (txIn0 : TxIn) (restIn : List TxIn),
        tx.msgTx.txIn = txIn0 :: restIn →
        txIn0.signatureScript = encodeCoinbaseHeight H ++ suffix →
        ExtractCoinbaseHeight tx = Except.ok (H : Int)) ∧
    (∀ (tx : Tx) (txIn0 : TxIn) (restIn : List TxIn),
        tx.msgTx.txIn = txIn0 :: restIn → txIn0.signatureScript = [] →
        ExtractCoinbaseHeight tx =
          Except.error (VErr.rule ErrorCode.MissingCoinbaseHeight)) ∧
    (∀ (tx : Tx) (txIn0 : TxIn) (restIn : List TxIn) (n : Nat)
        (body : List Nat),
        tx.msgTx.txIn = txIn0 :: restIn →
        txIn0.signatureScript = n :: body →
        n ≠ OP_0 → ¬(OP_1 ≤ n ∧ n ≤ OP_16) → body.length < n →
        ExtractCoinbaseHeight tx =
          Except.error (VErr.rule ErrorCode.MissingCoinbaseHeight)) := by
  have hext : ∀ (tx : Tx) (txIn0 : TxIn) (restIn : List TxIn),
      tx.msgTx.txIn = txIn0 :: restIn →
      ExtractCoinbaseHeight tx = extractHeightFromScript
        txIn0.signatureScript := by
    intro tx txIn0 restIn heq
    unfold ExtractCoinbaseHeight
    rw [heq]
  refine ⟨?_, ?_, ?_⟩
  · intro H hH suffix tx txIn0 restIn heq hs
    rw [hext tx txIn0 restIn heq, hs]
    simp only [List.mem_cons, List.not_mem_nil, or_false] at hH
    rcases hH with rfl | rfl | rfl | rfl | rfl | rfl
    · rw [show encodeCoinbaseHeight 0 = [OP_0] from rfl, List.singleton_append]
      simp [extractHeightFromScript]
    · rw [show encodeCoinbaseHeight 1 = [81] from by decide,
        List.singleton_append]
      simp [extractHeightFromScript, OP_0, OP_1, OP_16]
    · rw [show encodeCoinbaseHeight 16 = [96] from by decide,
        List.singleton_append]
      simp [extractHeightFromScript, OP_0, OP_1, OP_16]
    · rw [show encodeCoinbaseHeight 17 = ([17] : List Nat).length :: [17]
          from by decide, List.cons_append]
      rw [extractHeightFromScript_lenPrefixed [17] suffix (by decide)
        (by decide) (by decide)]
      exact congrArg Except.ok (by decide)
    · rw [show encodeCoinbaseHeight 1048576 =
          ([0, 0, 16] : List Nat).length :: [0, 0, 16] from by decide,
        List.cons_append]
      rw [extractHeightFromScript_lenPrefixed [0, 0, 16] suffix (by decide)
        (by decide) (by decide)]
      exact congrArg Except.ok (by decide)
    · rw [show encodeCoinbaseHeight 2147483647 =
          ([255, 255, 255, 127] : List Nat).length :: [255, 255, 255, 127]
          from by decide, List.cons_append]
      rw [extractHeightFromScript_lenPrefixed [255, 255, 255, 127] suffix
        (by decide) (by decide) (by decide)]
      exact congrArg Except.ok (by decide)
  · intro tx txIn0 restIn heq hs
    rw [hext tx txIn0 restIn heq, hs]
    rfl
  · intro tx txIn0 restIn n body heq hs hn0 hsm hlen
    rw [hext tx txIn0 restIn heq, hs]
    simp only [extractHeightFromScript]
    rw [if_neg hn0, if_neg hsm, if_pos hlen]

/-- Witness for extractCoinbaseHeight_leftInverse: the concrete coinbase
heightTx, whose script is the standard encoding of 17 followed by one extra
byte, extracts to 17. -/
theorem extractCoinbaseHeight_leftInverse_witness :
    ExtractCoinbaseHeight heightTx = Except.ok 17 :=
  extractCoinbaseHeight_leftInverse.1 17 (by decide) [9] heightTx
    { previousOutPoint := { hash := 0, index := maxUint32 }
      signatureScript := [1, 17, 9]
      sequence := maxUint32 } [] rfl (by decide)

/-- Helper: int64 wrap-around is the identity inside the int64 range. -/
theorem i64wrap_eq_self (x : Int) (h1 : -(2 ^ 63) ≤ x) (h2 : x < 2 ^ 63) :
    i64wrap x = x := by
  unfold i64wrap
  have hmod : (x + 2 ^ 63) % 2 ^ 64 = x + 2 ^ 63 :=
    Int.emod_eq_of_lt (by norm_num at h1 ⊢; omega)
      (by norm_num at h2 ⊢; omega)
  omega

/-- Helper: i64add agrees with exact integer addition inside the int64
range. -/
theorem i64add_eq_add (a b : Int) (h1 : -(2 ^ 63) ≤ a + b)
    (h2 : a + b < 2 ^ 63) : i64add a b = a + b :=
  i64wrap_eq_self (a + b) h1 h2

/-- Helper: MaxSatoshi is far below the int64 overflow boundary. -/
theorem maxSatoshi_lt_int64 : 2 * MaxSatoshi < 2 ^ 63 := by
  norm_num [MaxSatoshi]

/-- C10: for every coinbase transaction, CheckTransactionInputs returns fee 0
and no error at every height, view and chain-parameter record — the view is
never consulted. -/
theorem checkTransactionInputs_coinbase (tx : Tx) (txHeight : Int)
    (utxoView : UtxoViewpoint) (chainParams : Params)
    (hcb : IsCoinBase tx = true) :
    CheckTransactionInputs tx txHeight utxoView chainParams = Except.ok 0 := by
  simp [CheckTransactionInputs, hcb]

/-- Witness for checkTransactionInputs_coinbase: the concrete coinbase
coinbaseTx10 yields fee 0 on an arbitrary view. -/
theorem checkTransactionInputs_coinbase_witness :
    CheckTransactionInputs coinbaseTx10 5 maturityView maturityParams =
      Except.ok 0 :=
  checkTransactionInputs_coinbase coinbaseTx10 5 maturityView maturityParams
    (by decide)

/-- C7: for a non-coinbase transaction whose single input references an
unspent coinbase UTXO with an in-range amount, CheckTransactionInputs fails
ImmatureSpend exactly when the spending height minus the origin height is
strictly below the configured coinbase maturity; in particular spending at
originHeight + maturity - 1 fails ImmatureSpend and spending at
originHeight + maturity passes the maturity check. -/
theorem checkTransactionInputs_maturity (tx : Tx) (txIn0 : TxIn)
    (txHeight : Int) (view : UtxoViewpoint) (params : Params)
    (utxo : UtxoEntry)
    (hin : tx.msgTx.txIn = [txIn0])
    (hncb : IsCoinBase tx = false)
    (hlook : view.entries txIn0.previousOutPoint = some utxo)
    (hunspent : utxo.spent = false)
    (hcb : utxo.isCoinBase = true)
    (hamt0 : 0 ≤ utxo.amount) (hamtM : utxo.amount ≤ MaxSatoshi) :
    (CheckTransactionInputs tx txHeight view params =
        Except.error (VErr.rule ErrorCode.ImmatureSpend) ↔
      txHeight - utxo.blockHeight < (params.coinbaseMaturity : Int)) ∧
    (txHeight = utxo.blockHeight + (params.coinbaseMaturity : Int) - 1 →
      CheckTransactionInputs tx txHeight view params =
        Except.error (VErr.rule ErrorCode.ImmatureSpend)) ∧
    (txHeight = utxo.blockHeight + (params.coinbaseMaturity : Int) →
      CheckTransactionInputs tx txHeight view params ≠
        Except.error (VErr.rule ErrorCode.ImmatureSpend)) := by
  have hres : CheckTransactionInputs tx txHeight view params =
      if txHeight - utxo.blockHeight < (params.coinbaseMaturity : Int) then
        Except.error (VErr.rule ErrorCode.ImmatureSpend)
      else if utxo.amount < outputTotal tx then
        Except.error (VErr.rule ErrorCode.SpendTooHigh)
      else Except.ok (i64wrap (utxo.amount - outputTotal tx)) := by
    unfold CheckTransactionInputs
    rw [if_neg (by simp [hncb]), hin]
    simp only [inputLoop, hlook]
    rw [if_neg (by simp [hunspent])]
    by_cases hd : txHeight - utxo.blockHeight <
        (params.coinbaseMaturity : Int)
    · rw [if_pos ⟨hcb, hd⟩, if_pos hd]
    · rw [if_neg (by rw [hcb]; simp [hd]), if_neg (not_lt.mpr hamt0),
        if_neg (not_lt.mpr hamtM)]
      have ht : i64add 0 utxo.amount = utxo.amount := by
        unfold i64add
        rw [zero_add]
        refine i64wrap_eq_self _ ?_ ?_
        · have := maxSatoshi_lt_int64
          omega
        · have := maxSatoshi_lt_int64
          omega
      rw [ht, if_neg (by omega : ¬ (utxo.amount < 0 ∨
        utxo.amount > MaxSatoshi))]
      simp only [inputLoop]
      rw [if_neg hd]
  have hiff : CheckTransactionInputs tx txHeight view params =
      Except.error (VErr.rule ErrorCode.ImmatureSpend) ↔
      txHeight - utxo.blockHeight < (params.coinbaseMaturity : Int) := by
    rw [hres]
    by_cases hd : txHeight - utxo.blockHeight <
        (params.coinbaseMaturity : Int)
    · simp [hd]
    · rw [if_neg hd]
      by_cases ho : utxo.amount < outputTotal tx
      · simp [ho, hd]
      · simp [ho, hd]
  refine ⟨hiff, ?_, ?_⟩
  · intro hb
    exact hiff.mpr (by omega)
  · intro hb hc
    have := hiff.mp hc
    omega

/-- Witness for checkTransactionInputs_maturity: spending the concrete
coinbase entry of origin height 20 with maturity 100 at height 119 fails
ImmatureSpend. -/
theorem checkTransactionInputs_maturity_witness :
    CheckTransactionInputs maturityTx 119 maturityView maturityParams =
      Except.error (VErr.rule ErrorCode.ImmatureSpend) :=
  (checkTransactionInputs_maturity maturityTx
    { previousOutPoint := { hash := 77, index := 0 }
      signatureScript := []
      sequence := 0 } 119 maturityView maturityParams maturityEntry rfl
    (by decide) (by decide) rfl rfl (by decide) (by decide)).2.1 (by decide)

/-- Helper: when the output-value loop of CheckTransactionSanity succeeds
from an in-range accumulator, the result is the exact integer sum (no int64
wrap occurred) and stays within [0, MaxSatoshi]. -/
theorem valueLoop_ok (outs : List TxOut) (acc total : Int)
    (hacc0 : 0 ≤ acc) (haccM : acc ≤ MaxSatoshi)
    (h : valueLoop outs acc = Except.ok total) :
    total = acc + (outs.map TxOut.value).sum ∧ 0 ≤ total ∧
      total ≤ MaxSatoshi := by
  induction outs generalizing acc with
  | nil =>
    simp only [valueLoop, Except.ok.injEq] at h
    simp [← h]
    omega
  | cons o rest ih =>
    by_cases h1 : o.value < 0
    · simp [valueLoop, h1] at h
    · by_cases h2 : o.value > MaxSatoshi
      · simp [valueLoop, h1, h2] at h
      · have ht : i64add acc o.value = acc + o.value := by
          apply i64add_eq_add
          · have := maxSatoshi_lt_int64
            omega
          · have := maxSatoshi_lt_int64
            omega
        simp only [valueLoop, ht] at h
        rw [if_neg h1, if_neg h2, if_neg (by omega : ¬ acc + o.value < 0)]
          at h
        by_cases h4 : acc + o.value > MaxSatoshi
        · rw [if_pos h4] at h
          exact absurd h (by simp)
        · rw [if_neg h4] at h
          have := ih (acc + o.value) (by omega) (by omega) h
          simp only [List.map_cons, List.sum_cons]
          omega

/-- Helper: the output-value loop of CheckTransactionSanity rejects with
BadTxOutValue whenever some output is out of range or the exact total would
exceed MaxSatoshi. -/
theorem valueLoop_err (outs : List TxOut) (acc : Int)
    (hacc0 : 0 ≤ acc) (haccM : acc ≤ MaxSatoshi)
    (hbad : (∃ o ∈ outs, o.value < 0 ∨ o.value > MaxSatoshi) ∨
      acc + (outs.map TxOut.value).sum > MaxSatoshi) :
    valueLoop outs acc = Except.error (VErr.rule ErrorCode.BadTxOutValue) := by
  induction outs generalizing acc with
  | nil =>
    rcases hbad with ⟨o, ho, _⟩ | hsum
    · simp at ho
    · simp at hsum
      omega
  | cons o rest ih =>
    by_cases h1 : o.value < 0
    · simp [valueLoop, h1]
    · by_cases h2 : o.value > MaxSatoshi
      · simp [valueLoop, h1, h2]
      · have ht : i64add acc o.value = acc + o.value := by
          apply i64add_eq_add
          · have := maxSatoshi_lt_int64
            omega
          · have := maxSatoshi_lt_int64
            omega
        simp only [valueLoop, ht]
        rw [if_neg h1, if_neg h2, if_neg (by omega : ¬ acc + o.value < 0)]
        by_cases h4 : acc + o.value > MaxSatoshi
        · rw [if_pos h4]
        · rw [if_neg h4]
          apply ih (acc + o.value) (by omega) (by omega)
          rcases hbad with ⟨p, hp, hpbad⟩ | hsum
          · rcases List.mem_cons.mp hp with rfl | hp'
            · exact absurd hpbad (by omega)
            · exact Or.inl ⟨p, hp', hpbad⟩
          · right
            simp only [List.map_cons, List.sum_cons] at hsum
            omega

/-- C8: for a transaction that reaches the output-value checks (nonempty
inputs and outputs, in-range serialized size), CheckTransactionSanity fails
BadTxOutValue whenever a single output amount is out of [0, MaxSatoshi] or
the running output total exceeds MaxSatoshi; and on success the output
summation never wrapped — the loop computes the exact integer sum, which lies
in [0, MaxSatoshi]. -/
theorem checkTransactionSanity_outputs (tx : Tx)
    (hin : tx.msgTx.txIn ≠ [])
    (hout : tx.msgTx.txOut ≠ [])
    (hsize : tx.msgTx.serializedSizeStripped ≤ MaxBlockBaseSize) :
    (((∃ o ∈ tx.msgTx.txOut, o.value < 0 ∨ o.value > MaxSatoshi) ∨
        (tx.msgTx.txOut.map TxOut.value).sum > MaxSatoshi) →
      CheckTransactionSanity tx = some (VErr.rule ErrorCode.BadTxOutValue)) ∧
    (CheckTransactionSanity tx = none →
      valueLoop tx.msgTx.txOut 0 =
          Except.ok ((tx.msgTx.txOut.map TxOut.value).sum) ∧
        0 ≤ (tx.msgTx.txOut.map TxOut.value).sum ∧
        (tx.msgTx.txOut.map TxOut.value).sum ≤ MaxSatoshi) := by
  have hpre : CheckTransactionSanity tx =
      match valueLoop tx.msgTx.txOut 0 with
      | Except.error e => some e
      | Except.ok _ =>
        if hasDuplicateInputs tx.msgTx.txIn [] then
          some (VErr.rule ErrorCode.DuplicateTxInputs)
        else if IsCoinBase tx then
          let scriptLength := (tx.msgTx.txIn.headD
            { previousOutPoint := { hash := 0, index := 0 }
              signatureScript := []
              sequence := 0 }).signatureScript.length
          if scriptLength < MinCoinbaseScriptLen ∨
              scriptLength > MaxCoinbaseScriptLen then
            some (VErr.rule ErrorCode.BadCoinbaseScriptLen)
          else none
        else if tx.msgTx.txIn.any
            (fun txIn => isNullOutpoint txIn.previousOutPoint) then
          some (VErr.rule ErrorCode.BadTxInput)
        else none := by
    unfold CheckTransactionSanity
    rw [if_neg (by simp [List.length_eq_zero, hin]),
      if_neg (by simp [List.length_eq_zero, hout]),
      if_neg (not_lt.mpr hsize)]
  constructor
  · intro hbad
    have herr := valueLoop_err tx.msgTx.txOut 0 le_rfl
      (by norm_num [MaxSatoshi]) (by simpa using hbad)
    rw [hpre, herr]
  · intro hnone
    rw [hpre] at hnone
    rcases hv : valueLoop tx.msgTx.txOut 0 with e | t
    · rw [hv] at hnone
      simp at hnone
    · have hok := valueLoop_ok tx.msgTx.txOut 0 t le_rfl
        (by norm_num [MaxSatoshi]) hv
      refine ⟨?_, by omega, by omega⟩
      simp only [Except.ok.injEq]
      omega

/-- Witness for checkTransactionSanity_outputs: the concrete transaction
badValueTx with a single output of 2100000000000001 (one above MaxSatoshi)
fails BadTxOutValue. -/
theorem checkTransactionSanity_outputs_witness :
    CheckTransactionSanity badValueTx =
      some (VErr.rule ErrorCode.BadTxOutValue) :=
  (checkTransactionSanity_outputs badValueTx (by decide) (by decide)
    (by decide)).1
    (Or.inl ⟨{ value := 2100000000000001, pkScript := [] }, by decide,
      by decide⟩)

/-- Helper: spendInputs never changes the best hash of the view. -/
theorem spendInputs_bestHash : ∀ (ins : List TxIn) (v v2 : UtxoViewpoint),
    spendInputs ins v = Except.ok v2 → v2.bestHash = v.bestHash := by
  intro ins
  induction ins with
  | nil =>
    intro v v2 h
    simp only [spendInputs, Except.ok.injEq] at h
    rw [← h]
  | cons txIn rest ih =>
    intro v v2 h
    unfold spendInputs at h
    split at h
    · simp at h
    · have h2 := ih _ _ h
      exact h2

/-- Helper: connectTransaction never changes the best hash of the view. -/
theorem connectTransaction_bestHash (tx : Tx) (height : Int)
    (v v2 : UtxoViewpoint) (h : connectTransaction tx height v = Except.ok v2) :
    v2.bestHash = v.bestHash := by
  unfold connectTransaction at h
  split at h
  · simp only [Except.ok.injEq] at h
    rw [← h]
    rfl
  · split at h
    · simp at h
    · rename_i vmid heq
      simp only [Except.ok.injEq] at h
      rw [← h]
      have h3 := spendInputs_bestHash _ _ _ heq
      exact h3

/-- Helper: the fee/connect loop never changes the best hash of the view it
returns, on success and on failure alike. -/
theorem connectLoop_sndBestHash (b : BlockChain) (node : BlockNode) :
    ∀ (txs : List Tx) (fees : Int) (v : UtxoViewpoint),
      ((connectLoop b node txs fees v).2).bestHash = v.bestHash := by
  intro txs
  induction txs with
  | nil => intro fees v; rfl
  | cons tx rest ih =>
    intro fees v
    unfold connectLoop
    split
    · rfl
    · split
      · rfl
      · split
        · rfl
        · rename_i vmid heq
          have h2 := connectTransaction_bestHash _ _ _ _ heq
          rw [ih _ vmid]
          exact h2

/-- Helper: checkConnectBlockRest sets the best hash to the node's hash on
success and leaves it untouched on every failure. -/
theorem checkConnectBlockRest_bestHash (b : BlockChain) (node : BlockNode)
    (block : Block) (v1 : UtxoViewpoint) :
    ((checkConnectBlockRest b node block v1).1 = none →
      (checkConnectBlockRest b node block v1).2.bestHash = node.hash) ∧
    (∀ e, (checkConnectBlockRest b node block v1).1 = some e →
      (checkConnectBlockRest b node block v1).2.bestHash = v1.bestHash) := by
  unfold checkConnectBlockRest
  split
  · refine ⟨fun h => ?_, fun e h => rfl⟩
    simp at h
  · split
    · refine ⟨fun h => ?_, fun e h => rfl⟩
      simp at h
    · split
      · rename_i heq
        refine ⟨fun h => ?_, fun e2 h2 => ?_⟩
        · simp at h
        · have hv := connectLoop_sndBestHash b node block.transactions 0
            (fetchInputUtxos b.db block v1)
          rw [heq] at hv
          exact hv
      · rename_i heq
        split
        · refine ⟨fun h => ?_, fun e2 h2 => ?_⟩
          · simp at h
          · have hv := connectLoop_sndBestHash b node block.transactions 0
              (fetchInputUtxos b.db block v1)
            rw [heq] at hv
            exact hv
        · refine ⟨fun _ => rfl, fun e h => ?_⟩
          simp at h

/-- C9: given a view whose best hash is the block's parent hash,
checkConnectBlock sets the view's best hash to the connected node's hash
exactly on success; on every error return the best hash is left unchanged,
still the block's parent hash. -/
theorem checkConnectBlock_bestHash (b : BlockChain) (node : BlockNode)
    (block : Block) (view : UtxoViewpoint)
    (hview : view.bestHash = block.header.prevBlock) :
    ((checkConnectBlock b node block view).1 = none →
      (checkConnectBlock b node block view).2.bestHash = node.hash) ∧
    (∀ e, (checkConnectBlock b node block view).1 = some e →
      (checkConnectBlock b node block view).2.bestHash =
        block.header.prevBlock) := by
  unfold checkConnectBlock
  by_cases hgen : node.hash = b.cfg.params.genesisHash
  · rw [if_pos hgen]
    exact ⟨(fun h => nomatch h), fun e _ => hview⟩
  · rw [if_neg hgen, if_neg (by simp [hview])]
    by_cases hgate : isBIP0030Node node = false ∧
        node.height < b.cfg.params.bip0034Height
    · rw [if_pos hgate]
      unfold checkBIP0030
      by_cases hconf : hasBip30Conflict b.db block view = true
      · rw [if_pos hconf]
        exact ⟨(fun h => nomatch h), fun e _ => hview⟩
      · rw [if_neg hconf]
        have h := checkConnectBlockRest_bestHash b node block
          (fetchUtxos b.db (blockOutPoints block) view)
        exact ⟨h.1, fun e he => (h.2 e he).trans hview⟩
    · rw [if_neg hgate]
      have h := checkConnectBlockRest_bestHash b node block view
      exact ⟨h.1, fun e he => (h.2 e he).trans hview⟩

/-- Witness for checkConnectBlock_bestHash: connecting the genesis node is
rejected (MissingTxOut) and the concrete view's best hash stays the parent
hash 7. -/
theorem checkConnectBlock_bestHash_witness :
    (checkConnectBlock connectChain genesisNode bip30Block
      bip30View).2.bestHash = bip30Block.header.prevBlock :=
  (checkConnectBlock_bestHash connectChain genesisNode bip30Block bip30View
    rfl).2 (VErr.rule ErrorCode.MissingTxOut) (by decide)

/-- Helper: the per-input loop of CheckTransactionInputs never produces an
OverwriteTx error. -/
theorem inputLoop_no_overwrite (params : Params) (txHeight : Int)
    (view : UtxoViewpoint) :
    ∀ (ins : List TxIn) (acc : Int),
      inputLoop params txHeight view ins acc ≠
        Except.error (VErr.rule ErrorCode.OverwriteTx) := by
  intro ins
  induction ins with
  | nil =>
    intro acc h
    simp [inputLoop] at h
  | cons txIn rest ih =>
    intro acc h
    unfold inputLoop at h
    split at h
    · simp at h
    · split at h
      · simp at h
      · split at h
        · simp at h
        · split at h
          · simp at h
          · split at h
            · simp at h
            · split at h
              · simp at h
              · exact ih _ h

/-- Helper: CheckTransactionInputs never produces an OverwriteTx error. -/
theorem checkTransactionInputs_no_overwrite (tx : Tx) (txHeight : Int)
    (view : UtxoViewpoint) (params : Params) :
    CheckTransactionInputs tx txHeight view params ≠
      Except.error (VErr.rule ErrorCode.OverwriteTx) := by
  intro h
  unfold CheckTransactionInputs at h
  split at h
  · simp at h
  · split at h
    · rename_i e heq
      simp only [Except.error.injEq] at h
      rw [h] at heq
      exact inputLoop_no_overwrite params txHeight view _ _ heq
    · split at h
      · simp at h
      · simp at h

/-- Helper: spendInputs only fails with an assertion error. -/
theorem spendInputs_err_assert : ∀ (ins : List TxIn) (v : UtxoViewpoint)
    (e : VErr), spendInputs ins v = Except.error e → e = VErr.assert := by
  intro ins
  induction ins with
  | nil =>
    intro v e h
    simp [spendInputs] at h
  | cons txIn rest ih =>
    intro v e h
    unfold spendInputs at h
    split at h
    · simp only [Except.error.injEq] at h
      exact h.symm
    · exact ih _ _ h

/-- Helper: connectTransaction only fails with an assertion error. -/
theorem connectTransaction_err_assert (tx : Tx) (height : Int)
    (v : UtxoViewpoint) (e : VErr)
    (h : connectTransaction tx height v = Except.error e) :
    e = VErr.assert := by
  unfold connectTransaction at h
  split at h
  · simp at h
  · split at h
    · rename_i heq
      have h2 := spendInputs_err_assert _ _ _ heq
      simp only [Except.error.injEq] at h
      rw [← h]
      exact h2
    · simp at h

/-- Helper: the fee/connect loop never produces an OverwriteTx error. -/
theorem connectLoop_no_overwrite (b : BlockChain) (node : BlockNode) :
    ∀ (txs : List Tx) (fees : Int) (v : UtxoViewpoint),
      (connectLoop b node txs fees v).1 ≠
        Except.error (VErr.rule ErrorCode.OverwriteTx) := by
  intro txs
  induction txs with
  | nil =>
    intro fees v h
    simp [connectLoop] at h
  | cons tx rest ih =>
    intro fees v h
    unfold connectLoop at h
    split at h
    · rename_i e heq
      simp only [Except.error.injEq] at h
      rw [h] at heq
      exact checkTransactionInputs_no_overwrite _ _ _ _ heq
    · split at h
      · simp at h
      · split at h
        · rename_i e2 heq2
          simp only [Except.error.injEq] at h
          rw [h] at heq2
          have h3 := connectTransaction_err_assert _ _ _ _ heq2
          simp at h3
        · exact ih _ _ h

/-- Helper: the signature-operation loop never produces an OverwriteTx error
when the external counter never does. -/
theorem sigOpLoop_no_overwrite
    (gso : Tx → Bool → UtxoViewpoint → Bool → Bool → Except VErr Int)
    (view : UtxoViewpoint) (b16 sw : Bool)
    (hg : ∀ tx isFirst v x y e, gso tx isFirst v x y = Except.error e →
      e ≠ VErr.rule ErrorCode.OverwriteTx) :
    ∀ (txs : List Tx) (first : Bool) (acc : Int),
      sigOpLoop gso view b16 sw first acc txs ≠
        Except.error (VErr.rule ErrorCode.OverwriteTx) := by
  intro txs
  induction txs with
  | nil =>
    intro first acc h
    simp [sigOpLoop] at h
  | cons tx rest ih =>
    intro first acc h
    unfold sigOpLoop at h
    split at h
    · rename_i e heq
      simp only [Except.error.injEq] at h
      rw [h] at heq
      exact hg _ _ _ _ _ _ heq rfl
    · split at h
      · simp at h
      · exact ih _ _ h

/-- Helper: the CSV sequence-lock loop never produces an OverwriteTx error
when the external sequence-lock calculator never does. -/
theorem csvLoop_no_overwrite (b : BlockChain) (node : BlockNode)
    (view : UtxoViewpoint)
    (hseq : ∀ n tx v e, b.calcSequenceLock n tx v = Except.error e →
      e ≠ VErr.rule ErrorCode.OverwriteTx) :
    ∀ txs : List Tx, csvLoop b node view txs ≠
      some (VErr.rule ErrorCode.OverwriteTx) := by
  intro txs
  induction txs with
  | nil =>
    intro h
    simp [csvLoop] at h
  | cons tx rest ih =>
    intro h
    unfold csvLoop at h
    split at h
    · rename_i e heq
      simp only [Option.some.injEq] at h
      rw [h] at heq
      exact hseq _ _ _ _ heq rfl
    · split at h
      · exact ih h
      · simp at h

/-- Helper: the hard-fork payee loop never produces an OverwriteTx error. -/
theorem payeeLoop_no_overwrite : ∀ (ps : List Payee) (ts : List TxOut),
    payeeLoop ps ts ≠ some (VErr.rule ErrorCode.OverwriteTx) := by
  intro ps
  induction ps with
  | nil =>
    intro ts h
    simp [payeeLoop] at h
  | cons p rest ih =>
    intro ts h
    cases ts with
    | nil => simp [payeeLoop] at h
    | cons t ts2 =>
      unfold payeeLoop at h
      split at h
      · simp at h
      · split at h
        · simp at h
        · split at h
          · simp at h
          · split at h
            · simp at h
            · exact ih _ h

/-- Helper: the core-pubkey loop never produces an OverwriteTx error. -/
theorem corePubkeyLoop_no_overwrite : ∀ (pks : List (List Nat))
    (remainder : List Nat), corePubkeyLoop pks remainder ≠
      some (VErr.rule ErrorCode.OverwriteTx) := by
  intro pks
  induction pks with
  | nil =>
    intro remainder h
    simp [corePubkeyLoop] at h
  | cons pk rest ih =>
    intro remainder h
    unfold corePubkeyLoop at h
    split at h
    · simp at h
    · split at h
      · simp at h
      · exact ih _ h

/-- Helper: the hard-fork coinbase check never produces an OverwriteTx
error. -/
theorem hardforkCoinbaseCheck_no_overwrite (cfg : Cfg) (block : Block) :
    hardforkCoinbaseCheck cfg block ≠
      some (VErr.rule ErrorCode.OverwriteTx) := by
  intro h
  unfold hardforkCoinbaseCheck at h
  split at h
  · simp at h
  · split at h
    · rename_i e heq
      simp only [Option.some.injEq] at h
      rw [h] at heq
      exact payeeLoop_no_overwrite _ _ heq
    · split at h
      · simp at h
      · split at h
        · simp at h
        · split at h
          · simp at h
          · exact corePubkeyLoop_no_overwrite _ _ h

/-- Helper: the post-connect checks never produce an OverwriteTx error when
none of the external collaborators does. -/
theorem postConnectChecks_no_overwrite (b : BlockChain) (node : BlockNode)
    (block : Block) (v3 : UtxoViewpoint) (e16 esw : Bool) (fees : Int)
    (hcsv : ∀ e, b.csvState = Except.error e →
      e ≠ VErr.rule ErrorCode.OverwriteTx)
    (hseq : ∀ n tx v e, b.calcSequenceLock n tx v = Except.error e →
      e ≠ VErr.rule ErrorCode.OverwriteTx)
    (hscr : ∀ blk v f e, b.checkBlockScripts blk v f = Except.error e →
      e ≠ VErr.rule ErrorCode.OverwriteTx) :
    postConnectChecks b node block v3 e16 esw fees ≠
      some (VErr.rule ErrorCode.OverwriteTx) := by
  intro h
  unfold postConnectChecks at h
  split at h
  · simp at h
  · split at h
    · simp at h
    · split at h
      · rename_i e heq
        simp only [Option.some.injEq] at h
        rw [h] at heq
        by_cases hc : atHardforkHeight b.cfg node
        · rw [if_pos hc] at heq
          exact hardforkCoinbaseCheck_no_overwrite _ _ heq
        · rw [if_neg hc] at heq
          simp at heq
      · split at h
        · rename_i e heq
          simp only [Option.some.injEq] at h
          rw [h] at heq
          exact hcsv _ heq rfl
        · rename_i csvSt heq0
          split at h
          · rename_i e heq
            simp only [Option.some.injEq] at h
            rw [h] at heq
            by_cases hc : csvSt = ThresholdState.active
            · rw [if_pos hc] at heq
              exact csvLoop_no_overwrite b node v3 hseq _ heq
            · rw [if_neg hc] at heq
              simp at heq
          · split at h
            · rename_i e heq
              simp only [Option.some.injEq] at h
              rw [h] at heq
              by_cases hc : runScriptsFlag b node = true
              · rw [if_pos hc] at heq
                exact hscr _ _ _ _ heq rfl
              · rw [if_neg hc] at heq
                simp at heq
            · simp at h

/-- Helper: the tail of checkConnectBlock after the BIP0030 step never
produces an OverwriteTx error when none of the external collaborators
does. -/
theorem checkConnectBlockRest_no_overwrite (b : BlockChain) (node : BlockNode)
    (block : Block) (v1 : UtxoViewpoint)
    (hsw : ∀ e, b.segwitState = Except.error e →
      e ≠ VErr.rule ErrorCode.OverwriteTx)
    (hsig : ∀ tx isFirst v x y e, b.getSigOpCost tx isFirst v x y =
      Except.error e → e ≠ VErr.rule ErrorCode.OverwriteTx)
    (hcsv : ∀ e, b.csvState = Except.error e →
      e ≠ VErr.rule ErrorCode.OverwriteTx)
    (hseq : ∀ n tx v e, b.calcSequenceLock n tx v = Except.error e →
      e ≠ VErr.rule ErrorCode.OverwriteTx)
    (hscr : ∀ blk v f e, b.checkBlockScripts blk v f = Except.error e →
      e ≠ VErr.rule ErrorCode.OverwriteTx) :
    (checkConnectBlockRest b node block v1).1 ≠
      some (VErr.rule ErrorCode.OverwriteTx) := by
  intro h
  unfold checkConnectBlockRest at h
  split at h
  · rename_i e heq
    simp only [Option.some.injEq] at h
    rw [h] at heq
    exact hsw _ heq rfl
  · split at h
    · rename_i e heq
      simp only [Option.some.injEq] at h
      rw [h] at heq
      exact sigOpLoop_no_overwrite _ _ _ _ hsig _ _ _ heq
    · split at h
      · rename_i e v3 heq
        simp only [Option.some.injEq] at h
        rw [h] at heq
        have h2 := connectLoop_no_overwrite b node block.transactions 0
          (fetchInputUtxos b.db block v1)
        rw [heq] at h2
        exact h2 rfl
      · split at h
        · rename_i e heq
          simp only [Option.some.injEq] at h
          rw [h] at heq
          exact postConnectChecks_no_overwrite b node block _ _ _ _ hcsv hseq
            hscr heq
        · simp at h

/-- C1 (amended): past the genesis and view-consistency guards,
checkConnectBlock fails OverwriteTx exactly when the node is not one of the
two grandfathered exception blocks, the node's height is below the BIP0034
(serialized-height) activation height, and some output key of the block
duplicates an existing unspent entry — the gate is the BIP0034 activation
height, not pay-to-script-hash activation; no OverwriteTx arises once the
BIP0034 height is reached (given that no external collaborator reports
OverwriteTx itself). -/
theorem checkConnectBlock_bip30 (b : BlockChain) (node : BlockNode)
    (block : Block) (view : UtxoViewpoint)
    (hgen : node.hash ≠ b.cfg.params.genesisHash)
    (hview : view.bestHash = block.header.prevBlock)
    (hsw : ∀ e, b.segwitState = Except.error e →
      e ≠ VErr.rule ErrorCode.OverwriteTx)
    (hsig : ∀ tx isFirst v x y e, b.getSigOpCost tx isFirst v x y =
      Except.error e → e ≠ VErr.rule ErrorCode.OverwriteTx)
    (hcsv : ∀ e, b.csvState = Except.error e →
      e ≠ VErr.rule ErrorCode.OverwriteTx)
    (hseq : ∀ n tx v e, b.calcSequenceLock n tx v = Except.error e →
      e ≠ VErr.rule ErrorCode.OverwriteTx)
    (hscr : ∀ blk v f e, b.checkBlockScripts blk v f = Except.error e →
      e ≠ VErr.rule ErrorCode.OverwriteTx) :
    (checkConnectBlock b node block view).1 =
        some (VErr.rule ErrorCode.OverwriteTx) ↔
      (isBIP0030Node node = false ∧
        node.height < b.cfg.params.bip0034Height ∧
        hasBip30Conflict b.db block view = true) := by
  unfold checkConnectBlock
  rw [if_neg hgen, if_neg (by simp [hview])]
  by_cases hgate : isBIP0030Node node = false ∧
      node.height < b.cfg.params.bip0034Height
  · rw [if_pos hgate]
    unfold checkBIP0030
    by_cases hconf : hasBip30Conflict b.db block view = true
    · rw [if_pos hconf]
      simp [hgate.1, hgate.2, hconf]
    · rw [if_neg hconf]
      constructor
      · intro h
        exact absurd h (checkConnectBlockRest_no_overwrite b node block _
          hsw hsig hcsv hseq hscr)
      · intro hc
        exact absurd hc.2.2 hconf
  · rw [if_neg hgate]
    constructor
    · intro h
      exact absurd h (checkConnectBlockRest_no_overwrite b node block _
        hsw hsig hcsv hseq hscr)
    · intro hc
      exact absurd ⟨hc.1, hc.2.1⟩ hgate

/-- Witness for checkConnectBlock_bip30: the concrete node at height 40
(below BIP0034 activation 50) with the duplicate unspent entry under key
(55, 0) is rejected with OverwriteTx. -/
theorem checkConnectBlock_bip30_witness :
    (checkConnectBlock connectChain bip30Node bip30Block bip30View).1 =
      some (VErr.rule ErrorCode.OverwriteTx) :=
  (checkConnectBlock_bip30 connectChain bip30Node bip30Block bip30View
    (by decide) rfl (fun e h => nomatch h) (fun _ _ _ _ _ e h => nomatch h)
    (fun e h => nomatch h) (fun _ _ _ e h => nomatch h)
    (fun _ _ _ e h => nomatch h)).mpr ⟨by decide, by decide, by decide⟩

/-- Counterexample to C1 as stated: for the concrete node bip30Node,
pay-to-script-hash activation has already occurred (its timestamp 2000 is
past the Bip16 activation time 1000 of the configuration), yet
checkConnectBlock still performs the BIP0030 duplicate-output check and fails
OverwriteTx, because the node's height 40 is below the BIP0034 activation
height 50 — the gate is the BIP0034 height, not pay-to-script-hash
activation. -/
theorem checkConnectBlock_bip30_cex :
    bip30Node.timestamp ≥ connectChain.cfg.bip16Activation ∧
    (checkConnectBlock connectChain bip30Node bip30Block bip30View).1 =
      some (VErr.rule ErrorCode.OverwriteTx) := by
  constructor
  · decide
  · decide

end PodChain
